import Mathlib

/-!
Shallow embedding of the core logic of `app.py` (used-car price predictor):
record assembly, option catalogs, transmission code mapping, currency
conversion/formatting, exchange-rate fetch fallback, and the horsepower
validation gate.
-/

namespace CarPriceApp

/-- A cell value of the single-row feature record: a (finite) number, a
string, or the pandas missing sentinel `NaN` (`np.nan`).  In the source,
numbers are Python ints/floats; we embed them as rationals. -/
inductive Val where
  | num (q : ℚ)
  | str (s : String)
  | nan
deriving DecidableEq

/-- Numeric value of a digit list, most significant first. -/
def digitsToNat (ds : List Char) : Nat :=
  ds.foldl (fun a c => a * 10 + (c.toNat - 48)) 0

/-- Model of the string-to-number parsing performed by
`pd.to_numeric(..., errors="coerce")`: an optional minus sign, an integer
part, and an optional fractional part.  Strings that do not have this shape
parse to `none` (pandas coerces them to `NaN`). -/
def parseNumeric (s : String) : Option ℚ :=
  let cs := s.toList
  let neg := cs.head? = some '-'
  let cs := if cs.head? = some '-' then cs.tail else cs
  let intPart := cs.takeWhile Char.isDigit
  let rest := cs.dropWhile Char.isDigit
  match rest with
  | [] =>
      if intPart = [] then none
      else some ((if neg then -1 else 1) * (digitsToNat intPart : ℚ))
  | '.' :: frac =>
      if frac.all Char.isDigit ∧ (intPart ≠ [] ∨ frac ≠ []) then
        some ((if neg then -1 else 1) *
          ((digitsToNat intPart : ℚ) + (digitsToNat frac : ℚ) / (10 ^ frac.length)))
      else none
  | _ => none

/-- `pd.to_numeric(value, errors="coerce")` on a single cell (app.py line
546): numbers pass through, parseable strings become numbers, anything else
becomes `NaN`. -/
def to_numeric_coerce : Val → Val
  | .num q => .num q
  | .nan => .nan
  | .str s =>
      match parseNumeric s with
      | some q => .num q
      | none => .nan

/-- The boolean 0/1 flag columns (app.py line 289, `boolean_flags`). -/
def boolean_flags : List String :=
  ["fleet", "frame_damaged", "franchise_dealer", "has_accidents",
   "isCab", "is_new", "salvage", "theft_title"]

/-- Keys of `categorical_widget_map` (app.py lines 279-287): the columns
whose widgets produce categorical strings. -/
def categorical_widget_cols : List String :=
  ["body_type", "engine_cylinders", "engine_type", "fuel_type",
   "listing_color", "transmission", "wheel_system"]

/-- `numerical_cols` (app.py lines 267-274).  Note that every boolean flag
column also appears in this list. -/
def numerical_cols : List String :=
  ["back_legroom", "city_fuel_economy", "daysonmarket", "engine_displacement",
   "fleet", "frame_damaged", "franchise_dealer", "front_legroom",
   "fuel_tank_volume", "has_accidents", "height", "highway_fuel_economy",
   "horsepower", "isCab", "is_new", "length", "maximum_seating",
   "mileage", "owner_count", "salvage", "savings_amount", "seller_rating",
   "theft_title", "wheelbase", "width", "car_age"]

/-- A Python dict from column names to cell values, embedded as an
association list in insertion order. -/
abbrev Record := List (String × Val)

/-- Python dict lookup `d[k]` / `k in d` support: value at the first entry
whose key matches. -/
def lookupVal (d : Record) (k : String) : Option Val :=
  (d.find? (fun p => p.1 == k)).map Prod.snd

/-- Python dict assignment `d[k] = v`: replace the value of an existing key
in place, otherwise append a new entry at the end. -/
def dictInsert : Record → String → Val → Record
  | [], k, v => [(k, v)]
  | p :: rest, k, v =>
      if p.1 == k then (k, v) :: rest else p :: dictInsert rest k v

/-- Result of the record-assembly loop: the dict `input_df_data_final` plus
the list of `st.warning` messages emitted for uncollected columns (we record
the column name of each warning). -/
structure AssembleResult where
  record : Record
  warnings : List String
deriving DecidableEq

/-- One iteration of the assembly loop over `original_feature_columns`
(app.py lines 542-554). -/
def assembleStep (collected : Record) (acc : AssembleResult) (col : String) :
    AssembleResult :=
  match lookupVal collected col with
  | some value =>
      if col ∉ categorical_widget_cols ∧ col ∉ boolean_flags then
        { record := dictInsert acc.record col (to_numeric_coerce value),
          warnings := acc.warnings }
      else
        { record := dictInsert acc.record col value,
          warnings := acc.warnings }
  | none =>
      if col ∉ categorical_widget_cols ∧ col ∉ boolean_flags then
        { record := dictInsert acc.record col Val.nan,
          warnings := acc.warnings ++ [col] }
      else
        { record := dictInsert acc.record col (Val.str "Unknown"),
          warnings := acc.warnings ++ [col] }

/-- The record-assembly loop (app.py lines 541-554): builds
`input_df_data_final` from the schema `original_feature_columns` and the
collected widget values `input_values_from_widgets`. -/
def assemble (schema : List String) (collected : Record) : AssembleResult :=
  schema.foldl (assembleStep collected) { record := [], warnings := [] }

/-- The value the assembly loop stores for column `col`. -/
def valueFor (collected : Record) (col : String) : Val :=
  match lookupVal collected col with
  | some value =>
      if col ∉ categorical_widget_cols ∧ col ∉ boolean_flags then
        to_numeric_coerce value
      else value
  | none =>
      if col ∉ categorical_widget_cols ∧ col ∉ boolean_flags then
        Val.nan
      else Val.str "Unknown"

/-- One cell of the secondary coercion loop (app.py lines 557-563): cells of
columns listed in `numerical_cols` are re-coerced with `pd.to_numeric`
unless they already hold the missing sentinel (`pd.isna`). -/
def coerceNumericEntry : Val → Val
  | .nan => .nan
  | v => to_numeric_coerce v

/-- The secondary coercion loop over the DataFrame columns (app.py lines
557-563). -/
def applyNumericCoercion (r : Record) : Record :=
  r.map (fun p => if p.1 ∈ numerical_cols then (p.1, coerceNumericEntry p.2) else p)

/-- The single-row record actually passed to `preprocessor.transform`
(app.py lines 556-567): the assembled dict after the numeric coercion loop.
(The `pd.DataFrame(..., columns=original_feature_columns)` reindexing is the
identity here because the dict keys are exactly the schema columns.) -/
def input_df (schema : List String) (collected : Record) : Record :=
  applyNumericCoercion (assemble schema collected).record

/-- `prepare_options` (app.py lines 238-245): replace every null entry of
the raw list by `nan_replacement`, deduplicate, and (when `sort` is set)
sort ascending.  Raw entries are embedded as `Option String`, with `none`
standing for `np.nan`. -/
def prepare_options (raw_list : List (Option String)) (nan_replacement : String)
    (sort : Bool) : List String :=
  let options_str := raw_list.map (fun item =>
    match item with
    | none => nan_replacement
    | some s => s)
  if sort then List.insertionSort (fun a b => a ≤ b) options_str.dedup
  else options_str.dedup

/-- `listing_color_opts_raw` (app.py line 251); it contains no null marker,
the sentinel `UNKNOWN` is already a plain string member. -/
def listing_color_opts_raw : List (Option String) :=
  [some "SILVER", some "GRAY", some "WHITE", some "BLACK", some "BLUE",
   some "RED", some "UNKNOWN", some "GREEN", some "YELLOW", some "BROWN",
   some "GOLD", some "TEAL", some "ORANGE", some "PURPLE", some "PINK"]

/-- `listing_color_options` (app.py line 260). -/
def listing_color_options : List String :=
  prepare_options listing_color_opts_raw "UNKNOWN" true

/-- `transmission_options_map` (app.py line 261), in dict insertion order:
internal code to display label. -/
def transmission_options_map : List (String × String) :=
  [("A", "Automatic"), ("M", "Manual"), ("CVT", "CVT"),
   ("Dual Clutch", "Dual Clutch"), ("Unknown", "Unknown")]

/-- Reverse lookup of the transmission display map (app.py lines 511-515):
the first internal code whose display label matches, else the label itself. -/
def to_internal_code (display_label : String) : String :=
  match transmission_options_map.find? (fun kv => kv.2 == display_label) with
  | some kv => kv.1
  | none => display_label

/-- Exchange-rate table: ISO currency code to multiplier relative to USD. -/
abbrev RateTable := List (String × ℚ)

/-- Python dict `.get` without default on a rate table. -/
def lookup_rate (table : RateTable) (code : String) : Option ℚ :=
  (table.find? (fun p => p.1 == code)).map Prod.snd

/-- `rates.get(selected_currency, 1.0)` (app.py line 573): the rate for the
selected currency, defaulting to 1 when the code is absent. -/
def rate_or_one (table : RateTable) (code : String) : ℚ :=
  (lookup_rate table code).getD 1

/-- Python `int()` truncation toward zero, on rationals. -/
def truncInt (q : ℚ) : ℤ :=
  if q < 0 then -⌊-q⌋ else ⌊q⌋

/-- Round to the nearest integer, ties to the even integer (the rounding
used by Python float formatting); used to contrast with `truncInt`. -/
def roundHalfEven (q : ℚ) : ℤ :=
  let f := ⌊q⌋
  let r := q - (f : ℚ)
  if r < 1 / 2 then f
  else if 1 / 2 < r then f + 1
  else if f % 2 = 0 then f else f + 1

/-- Decimal digits of a natural number, least significant first, with an
explicit recursion bound so that the definition is structural. -/
def natDigitsRevAux : Nat → Nat → List Char
  | _, 0 => []
  | n, fuel + 1 =>
      if n < 10 then [Char.ofNat (48 + n)]
      else Char.ofNat (48 + n % 10) :: natDigitsRevAux (n / 10) fuel

/-- Decimal digits of a natural number, least significant first. -/
def natDigitsRev (n : Nat) : List Char :=
  natDigitsRevAux n (n + 1)

/-- Insert a comma after every three characters of a reversed digit list,
only when more digits follow (thousands grouping). -/
def commasRev : List Char → List Char
  | [] => []
  | [d1] => [d1]
  | [d1, d2] => [d1, d2]
  | [d1, d2, d3] => [d1, d2, d3]
  | d1 :: d2 :: d3 :: rest => d1 :: d2 :: d3 :: ',' :: commasRev rest

/-- Thousands-grouped decimal rendering of a natural number, as produced by
a Python format spec with a comma. -/
def formatThousandsNat (n : Nat) : String :=
  String.mk (commasRev (natDigitsRev n)).reverse

/-- Python `f"{n:,}"` on an integer: sign plus grouped digits. -/
def formatGroupedInt (n : ℤ) : String :=
  (if n < 0 then "-" else "") ++ formatThousandsNat n.natAbs

/-- Two-digit zero-padded rendering of a number below 100. -/
def pad2 (m : Nat) : String :=
  if m < 10 then "0" ++ String.mk (natDigitsRev m).reverse
  else String.mk (natDigitsRev m).reverse

/-- Python `f"{x:,.2f}"`: round to two decimal places (ties to even), group
the integer part by thousands, and always show exactly two decimals. -/
def formatFixed2 (q : ℚ) : String :=
  let n := roundHalfEven (q * 100)
  let a := n.natAbs
  (if n < 0 then "-" else "") ++ formatThousandsNat (a / 100) ++ "." ++ pad2 (a % 100)

/-- Currency conversion and display formatting (app.py lines 573-578):
multiply the USD price by the rate for the selected currency (default 1),
then format as a grouped truncated integer for JPY and as a grouped
two-decimal number otherwise.  Returns the numeric value and the display
string. -/
def convert (price : ℚ) (currency_code : String) (table : RateTable) : ℚ × String :=
  let final_price := price * rate_or_one table currency_code
  let formatted :=
    if currency_code == "JPY" then formatGroupedInt (truncInt final_price)
    else formatFixed2 final_price
  (final_price, formatted)

/-- Outcome of the remote exchange-rate call in `get_exchange_rates` (app.py
lines 36-53): either some exception was raised while fetching, parsing, or
indexing the response (caught by the bare `except`), or a JSON body was
obtained with a result indicator and a code-to-rate mapping. -/
inductive FetchOutcome where
  | err
  | ok (result : String) (rates : RateTable)

/-- The hard-coded fallback table (app.py lines 50 and 53). -/
def fallback_rates : RateTable :=
  [("USD", 1), ("EUR", 85 / 100), ("GBP", 75 / 100), ("JPY", 110),
   ("CAD", 125 / 100), ("AUD", 135 / 100), ("EGP", 50)]

/-- The seven currency codes the fallback table covers. -/
def fallback_currencies : List String :=
  ["USD", "EUR", "GBP", "JPY", "CAD", "AUD", "EGP"]

/-- `get_exchange_rates` (app.py lines 36-53) as a function of the remote
outcome: on success return the live rates, injecting `EGP` at 50 when it is
absent; on a non-success result or any exception return the fallback table. -/
def get_exchange_rates : FetchOutcome → RateTable
  | .err => fallback_rates
  | .ok result rates =>
      if result = "success" then
        if "EGP" ∉ rates.map Prod.fst then rates ++ [("EGP", 50)] else rates
      else fallback_rates

/-- The three non-silent horsepower messages of app.py lines 405-411. -/
inductive HpMsg where
  | errorRange
  | warnHigh
  | infoLow
deriving DecidableEq

/-- The horsepower validation block (app.py lines 403-412): given the
entered horsepower and the running `valid_inputs` flag, return the updated
flag and the message shown, if any.  Only the out-of-range branch clears
`valid_inputs`. -/
def horsepower_check (hp : ℤ) (valid_inputs : Bool) : Bool × Option HpMsg :=
  if hp > 1200 ∨ hp < 10 then (false, some .errorRange)
  else if hp > 600 then (valid_inputs, some .warnHigh)
  else if hp < 50 then (valid_inputs, some .infoLow)
  else (valid_inputs, none)

/-- The Predict button (app.py line 526): disabled whenever `valid_inputs`
is false, and a disabled Streamlit button always reports `False`.  The
transform/predict calls run only under `if predict_btn:` (app.py line 531),
so this value is also whether the external calls are attempted. -/
def predict_btn (valid_inputs pressed : Bool) : Bool :=
  pressed && valid_inputs

/-! Helper lemmas about the dict embedding and the assembly loop. -/

theorem lookupVal_cons (p : String × Val) (d : Record) (k : String) :
    lookupVal (p :: d) k = if p.1 = k then some p.2 else lookupVal d k := by
  by_cases h : p.1 = k
  · rw [if_pos h, lookupVal, List.find?_cons_of_pos _ (by simpa using h)]
    rfl
  · rw [if_neg h, lookupVal, List.find?_cons_of_neg _ (by simpa using h)]
    rfl

theorem lookupVal_dictInsert_self (d : Record) (k : String) (v : Val) :
    lookupVal (dictInsert d k v) k = some v := by
  induction d with
  | nil => simp [dictInsert, lookupVal_cons]
  | cons p rest ih =>
      rw [dictInsert]
      by_cases h : p.1 = k
      · simp [h, lookupVal_cons]
      · simp [h, lookupVal_cons, ih]

theorem lookupVal_dictInsert_ne (d : Record) (k : String) (v : Val) (c : String)
    (h : c ≠ k) : lookupVal (dictInsert d k v) c = lookupVal d c := by
  induction d with
  | nil => simp [dictInsert, lookupVal_cons, Ne.symm h]
  | cons p rest ih =>
      rw [dictInsert]
      by_cases hp : p.1 = k
      · simp [hp, lookupVal_cons, Ne.symm h]
      · simp [hp, lookupVal_cons, ih]

theorem map_fst_dictInsert_of_notMem (d : Record) (k : String) (v : Val)
    (h : k ∉ d.map Prod.fst) : (dictInsert d k v).map Prod.fst = d.map Prod.fst ++ [k] := by
  induction d with
  | nil => simp [dictInsert]
  | cons p rest ih =>
      rw [dictInsert]
      have hp : p.1 ≠ k := by
        intro he
        exact h (by simp [he])
      have hr : k ∉ rest.map Prod.fst := by
        intro hm
        exact h (by simp [hm])
      simp [hp, ih hr]

theorem assembleStep_record (collected : Record) (acc : AssembleResult) (col : String) :
    (assembleStep collected acc col).record = dictInsert acc.record col (valueFor collected col) := by
  cases hl : lookupVal collected col with
  | none =>
      by_cases hc : col ∉ categorical_widget_cols ∧ col ∉ boolean_flags <;>
        simp [assembleStep, valueFor, hl, hc]
  | some v =>
      by_cases hc : col ∉ categorical_widget_cols ∧ col ∉ boolean_flags <;>
        simp [assembleStep, valueFor, hl, hc]

theorem assembleStep_warnings (collected : Record) (acc : AssembleResult) (col : String) :
    (assembleStep collected acc col).warnings
      = acc.warnings ++ (if (lookupVal collected col).isNone then [col] else []) := by
  cases hl : lookupVal collected col with
  | none =>
      by_cases hc : col ∉ categorical_widget_cols ∧ col ∉ boolean_flags <;>
        simp [assembleStep, hl, hc]
  | some v =>
      by_cases hc : col ∉ categorical_widget_cols ∧ col ∉ boolean_flags <;>
        simp [assembleStep, hl, hc]

theorem assemble_go_lookup_of_notMem (collected : Record) (schema : List String) :
    ∀ (acc : AssembleResult) (c : String), c ∉ schema →
      lookupVal (List.foldl (assembleStep collected) acc schema).record c
        = lookupVal acc.record c := by
  induction schema with
  | nil => intro acc c _; rfl
  | cons s rest ih =>
      intro acc c h
      rw [List.foldl_cons, ih _ c (fun hm => h (List.mem_cons_of_mem _ hm)),
        assembleStep_record]
      refine lookupVal_dictInsert_ne _ _ _ _ ?_
      intro he
      exact h (by rw [he]; exact List.mem_cons_self s rest)

theorem assemble_go_lookup_of_mem (collected : Record) (schema : List String) :
    ∀ (acc : AssembleResult) (c : String), c ∈ schema →
      lookupVal (List.foldl (assembleStep collected) acc schema).record c
        = some (valueFor collected c) := by
  induction schema with
  | nil => intro acc c h; exact absurd h (List.not_mem_nil c)
  | cons s rest ih =>
      intro acc c h
      rw [List.foldl_cons]
      by_cases hr : c ∈ rest
      · exact ih _ c hr
      · have hcs : c = s := by
          rcases List.mem_cons.mp h with h1 | h1
          · exact h1
          · exact absurd h1 hr
        subst hcs
        rw [assemble_go_lookup_of_notMem collected rest _ c hr, assembleStep_record]
        exact lookupVal_dictInsert_self _ _ _

theorem assemble_go_keys (collected : Record) (schema : List String) :
    ∀ acc : AssembleResult, schema.Nodup →
      (∀ c ∈ schema, c ∉ acc.record.map Prod.fst) →
      (List.foldl (assembleStep collected) acc schema).record.map Prod.fst
        = acc.record.map Prod.fst ++ schema := by
  induction schema with
  | nil => intro acc _ _; simp
  | cons s rest ih =>
      intro acc hnd hdisj
      rw [List.foldl_cons]
      have hk : (assembleStep collected acc s).record.map Prod.fst
          = acc.record.map Prod.fst ++ [s] := by
        rw [assembleStep_record]
        exact map_fst_dictInsert_of_notMem _ _ _ (hdisj s (List.mem_cons_self s rest))
      have hdisj2 : ∀ c ∈ rest, c ∉ (assembleStep collected acc s).record.map Prod.fst := by
        intro c hc
        rw [hk]
        intro hmem
        rcases List.mem_append.mp hmem with h1 | h1
        · exact hdisj c (List.mem_cons_of_mem _ hc) h1
        · have : c = s := by simpa using h1
          exact (List.nodup_cons.mp hnd).1 (this ▸ hc)
      rw [ih _ (List.nodup_cons.mp hnd).2 hdisj2, hk]
      simp

theorem assemble_go_warnings (collected : Record) (schema : List String) :
    ∀ acc : AssembleResult,
      (List.foldl (assembleStep collected) acc schema).warnings
        = acc.warnings ++ schema.filter (fun c => (lookupVal collected c).isNone) := by
  induction schema with
  | nil => intro acc; simp
  | cons s rest ih =>
      intro acc
      rw [List.foldl_cons, ih, assembleStep_warnings, List.filter_cons]
      cases h : (lookupVal collected s).isNone <;> simp [h]

theorem assemble_lookup (schema : List String) (collected : Record) (c : String)
    (h : c ∈ schema) :
    lookupVal (assemble schema collected).record c = some (valueFor collected c) :=
  assemble_go_lookup_of_mem collected schema _ c h

theorem assemble_keys (schema : List String) (collected : Record)
    (h : schema.Nodup) :
    (assemble schema collected).record.map Prod.fst = schema := by
  have := assemble_go_keys collected schema { record := [], warnings := [] } h
    (by intro c _ hc; simp at hc)
  simpa [assemble] using this

theorem assemble_warnings (schema : List String) (collected : Record) :
    (assemble schema collected).warnings
      = schema.filter (fun c => (lookupVal collected c).isNone) := by
  have := assemble_go_warnings collected schema { record := [], warnings := [] }
  simpa [assemble] using this

theorem assemble_warnings_count_one (schema : List String) (collected : Record)
    (c : String) (hnd : schema.Nodup) (hc : c ∈ schema)
    (habs : lookupVal collected c = none) :
    (assemble schema collected).warnings.count c = 1 := by
  rw [assemble_warnings]
  exact List.count_eq_one_of_mem (hnd.filter _)
    (List.mem_filter.mpr ⟨hc, by simp [habs]⟩)

theorem lookupVal_applyNumericCoercion (r : Record) (c : String) :
    lookupVal (applyNumericCoercion r) c
      = (lookupVal r c).map
          (fun v => if c ∈ numerical_cols then coerceNumericEntry v else v) := by
  induction r with
  | nil => rfl
  | cons p rest ih =>
      by_cases hp : p.1 = c
      · by_cases hn : c ∈ numerical_cols <;>
          simp [applyNumericCoercion, lookupVal_cons, hp, hn]
      · by_cases hn : p.1 ∈ numerical_cols <;>
          simpa [applyNumericCoercion, lookupVal_cons, hp, hn] using ih

theorem input_df_lookup (schema : List String) (collected : Record) (c : String)
    (h : c ∈ schema) :
    lookupVal (input_df schema collected) c
      = some (if c ∈ numerical_cols then coerceNumericEntry (valueFor collected c)
              else valueFor collected c) := by
  rw [input_df, lookupVal_applyNumericCoercion, assemble_lookup schema collected c h]
  rfl

/-! Helper lemmas about option preparation, the transmission map, currency
formatting, and exchange rates. -/

theorem prepare_options_perm (raw : List (Option String)) (nr : String) :
    (prepare_options raw nr true).Perm
      ((raw.map (fun item =>
        match item with
        | none => nr
        | some s => s)).dedup) := by
  simpa [prepare_options] using
    List.perm_insertionSort (fun a b : String => a ≤ b)
      ((raw.map (fun item =>
        match item with
        | none => nr
        | some s => s)).dedup)

theorem listing_color_options_mem_iff (s : String) :
    s ∈ listing_color_options ↔
      s ∈ ((listing_color_opts_raw.map (fun item =>
        match item with
        | none => "UNKNOWN"
        | some t => t)).dedup) :=
  (prepare_options_perm listing_color_opts_raw "UNKNOWN").mem_iff

theorem to_internal_code_of_notMem (label : String)
    (h : label ∉ transmission_options_map.map Prod.snd) :
    to_internal_code label = label := by
  have hf : transmission_options_map.find? (fun kv => kv.2 == label) = none := by
    rw [List.find?_eq_none]
    intro kv hkv hbeq
    exact h (List.mem_map.mpr ⟨kv, hkv, by simpa using hbeq⟩)
  rw [to_internal_code, hf]

theorem truncInt_intCast (n : ℤ) : truncInt ((n : ℤ) : ℚ) = n := by
  rw [truncInt]
  by_cases h : ((n : ℤ) : ℚ) < 0
  · rw [if_pos h, ← Int.cast_neg, Int.floor_intCast, neg_neg]
  · rw [if_neg h, Int.floor_intCast]

theorem roundHalfEven_intCast (n : ℤ) : roundHalfEven ((n : ℤ) : ℚ) = n := by
  rw [roundHalfEven]
  simp only [Int.floor_intCast, sub_self]
  norm_num

theorem formatFixed2_eq (q : ℚ) (n : ℤ) (h : roundHalfEven (q * 100) = n) :
    formatFixed2 q
      = (if n < 0 then "-" else "") ++ formatThousandsNat (n.natAbs / 100)
          ++ "." ++ pad2 (n.natAbs % 100) := by
  rw [formatFixed2, h]

theorem lookup_rate_append_of_ne (l1 l2 : RateTable) (c : String)
    (h : ∀ p ∈ l1, p.1 ≠ c) :
    lookup_rate (l1 ++ l2) c = lookup_rate l2 c := by
  induction l1 with
  | nil => rfl
  | cons p rest ih =>
      have hp : (p.1 == c) = false := by
        simpa using h p (List.mem_cons_self p rest)
      simp only [List.cons_append, lookup_rate, List.find?]
      rw [hp]
      exact ih (fun x hx => h x (List.mem_cons_of_mem _ hx))

/-! The claims. -/

/-- C1, counterexample: the claimed postcondition fails for a schema with a
repeated column name.  For schema `[a, a]` and no collected values the
assembled dict has a single entry, so its key list is `[a]`, not the
two-element schema. -/
theorem C1_keys_counterexample :
    (assemble ["a", "a"] []).record.map Prod.fst = ["a"]
      ∧ (assemble ["a", "a"] []).record.map Prod.fst ≠ ["a", "a"] := by
  decide

/-- C1, amended: for every schema without repeated column names and every
collected-values mapping, the assembled record has exactly the schema
columns as its keys, in schema order, whatever subset of columns was
collected. -/
theorem C1_keys_amended (schema : List String) (collected : Record)
    (h : schema.Nodup) :
    (assemble schema collected).record.map Prod.fst = schema :=
  assemble_keys schema collected h

/-- Witness for C1: the amended theorem at a concrete duplicate-free schema
with nothing collected. -/
theorem C1_keys_amended_witness :
    (assemble ["mileage", "body_type"] []).record.map Prod.fst
      = ["mileage", "body_type"] :=
  C1_keys_amended ["mileage", "body_type"] [] (by decide)

/-- C2, counterexample: `fleet` is a boolean column, yet when it is absent
from the collected values the record passed to the preprocessor holds NaN,
not the string `Unknown`: the assembly loop writes `Unknown` first, but
`fleet` also appears in `numerical_cols`, so the numeric coercion loop
(app.py lines 557-563) coerces that string to NaN. -/
theorem C2_missing_boolean_counterexample :
    "fleet" ∈ boolean_flags
      ∧ lookupVal (input_df ["fleet"] []) "fleet" = some Val.nan
      ∧ Val.nan ≠ Val.str "Unknown" := by
  decide

/-- C2, amended: an uncollected categorical column (not listed in
`numerical_cols`) reaches the preprocessor as the string `Unknown`; an
uncollected boolean column reaches it as NaN, because every boolean flag is
also in `numerical_cols` and the coercion loop destroys the `Unknown`
string; an uncollected numeric column reaches it as NaN; exactly one
warning is emitted per uncollected column; and the concrete
mileage/horsepower/body-type example behaves exactly as the claim states
(body_type is categorical, so its `Unknown` survives). -/
theorem C2_missing_columns_amended :
    (∀ (schema : List String) (collected : Record) (c : String),
        schema.Nodup → c ∈ schema → lookupVal collected c = none →
        (c ∈ categorical_widget_cols → c ∉ numerical_cols →
            lookupVal (input_df schema collected) c = some (Val.str "Unknown"))
          ∧ (c ∈ boolean_flags →
              lookupVal (input_df schema collected) c = some Val.nan)
          ∧ (c ∉ categorical_widget_cols → c ∉ boolean_flags →
              lookupVal (input_df schema collected) c = some Val.nan)
          ∧ (assemble schema collected).warnings.count c = 1)
      ∧ input_df ["mileage", "horsepower", "body_type"]
          [("mileage", Val.num 50000), ("horsepower", Val.num 200)]
          = [("mileage", Val.num 50000), ("horsepower", Val.num 200),
             ("body_type", Val.str "Unknown")]
      ∧ (assemble ["mileage", "horsepower", "body_type"]
          [("mileage", Val.num 50000), ("horsepower", Val.num 200)]).warnings
          = ["body_type"] := by
  refine ⟨?_, by decide, by decide⟩
  intro schema collected c hnd hc habs
  have hval : valueFor collected c
      = if c ∉ categorical_widget_cols ∧ c ∉ boolean_flags then Val.nan
        else Val.str "Unknown" := by
    rw [valueFor, habs]
  refine ⟨?_, ?_, ?_, assemble_warnings_count_one schema collected c hnd hc habs⟩
  · intro hcat hnum
    rw [input_df_lookup schema collected c hc, if_neg hnum, hval,
      if_neg (by simp [hcat])]
  · intro hbool
    have hnum : c ∈ numerical_cols := by
      have hsub : ∀ x ∈ boolean_flags, x ∈ numerical_cols := by decide
      exact hsub c hbool
    rw [input_df_lookup schema collected c hc, if_pos hnum, hval,
      if_neg (by simp [hbool])]
    exact rfl
  · intro hcat hbool
    have hval2 : valueFor collected c = Val.nan := by
      rw [hval, if_pos ⟨hcat, hbool⟩]
    rw [input_df_lookup schema collected c hc, hval2]
    by_cases hn : c ∈ numerical_cols
    · rw [if_pos hn]
      exact rfl
    · rw [if_neg hn]

/-- Witness for C2: the amended theorem at schema `[body_type]` with
nothing collected. -/
theorem C2_missing_columns_witness :
    lookupVal (input_df ["body_type"] []) "body_type"
      = some (Val.str "Unknown") :=
  (C2_missing_columns_amended.1 ["body_type"] [] "body_type"
    (by decide) (by decide) rfl).1 (by decide) (by decide)

/-- C3, counterexample: when `listing_color` is absent from the collected
values, the assembled record holds the global fallback string `Unknown`,
which is not a member of the listing-color domain (whose sentinel is the
upper-case `UNKNOWN`). -/
theorem C3_listing_color_counterexample :
    lookupVal (input_df ["listing_color"] []) "listing_color"
        = some (Val.str "Unknown")
      ∧ "Unknown" ∉ listing_color_options := by
  refine ⟨by decide, ?_⟩
  intro h
  have h2 := (listing_color_options_mem_iff "Unknown").mp h
  revert h2
  decide

/-- C3, amended: when a `listing_color` value from the domain is collected
it is placed into the record unchanged (so the domain invariant holds for
collected values, which the selectbox widget enforces); but when the column
is absent, the inserted value is the global fallback `Unknown`, which is
not in the listing-color domain. -/
theorem C3_listing_color_amended :
    (∀ (schema : List String) (collected : Record) (s : String),
        "listing_color" ∈ schema →
        lookupVal collected "listing_color" = some (Val.str s) →
        s ∈ listing_color_options →
        lookupVal (input_df schema collected) "listing_color"
          = some (Val.str s))
      ∧ (∀ (schema : List String) (collected : Record),
        "listing_color" ∈ schema →
        lookupVal collected "listing_color" = none →
        lookupVal (input_df schema collected) "listing_color"
          = some (Val.str "Unknown"))
      ∧ "Unknown" ∉ listing_color_options := by
  refine ⟨?_, ?_, ?_⟩
  · intro schema collected s hs hcoll _
    rw [input_df_lookup _ _ _ hs,
      if_neg (by decide : "listing_color" ∉ numerical_cols),
      valueFor, hcoll]
    exact rfl
  · intro schema collected hs hcoll
    rw [input_df_lookup _ _ _ hs,
      if_neg (by decide : "listing_color" ∉ numerical_cols),
      valueFor, hcoll]
    exact rfl
  · intro h
    have h2 := (listing_color_options_mem_iff "Unknown").mp h
    revert h2
    decide

/-- Witness for C3: the amended theorem at a singleton schema with a
collected in-domain color. -/
theorem C3_listing_color_witness :
    lookupVal (input_df ["listing_color"] [("listing_color", Val.str "BLACK")])
        "listing_color" = some (Val.str "BLACK") :=
  C3_listing_color_amended.1 ["listing_color"]
    [("listing_color", Val.str "BLACK")] "BLACK" (by decide) rfl
    ((listing_color_options_mem_iff "BLACK").mpr (by decide))

/-- C4: a numeric (non-categorical, non-boolean) schema column whose
collected value is a non-numeric string is stored as NaN; and the assembly
operation is total, producing a value for every schema column on every
input (it is a plain function, so no exception is possible). -/
theorem C4_numeric_coercion_total :
    (∀ (schema : List String) (collected : Record) (c s : String),
        c ∈ schema → c ∉ categorical_widget_cols → c ∉ boolean_flags →
        lookupVal collected c = some (Val.str s) → parseNumeric s = none →
        lookupVal (assemble schema collected).record c = some Val.nan)
      ∧ (∀ (schema : List String) (collected : Record) (c : String),
        c ∈ schema →
        ∃ v, lookupVal (assemble schema collected).record c = some v) := by
  constructor
  · intro schema collected c s hc hcat hbool hcoll hparse
    have hcond : c ∉ categorical_widget_cols ∧ c ∉ boolean_flags := ⟨hcat, hbool⟩
    have hv : valueFor collected c = Val.nan := by
      rw [valueFor, hcoll]
      show (if c ∉ categorical_widget_cols ∧ c ∉ boolean_flags
          then to_numeric_coerce (Val.str s) else Val.str s) = Val.nan
      rw [if_pos hcond]
      simp [to_numeric_coerce, hparse]
    rw [assemble_lookup schema collected c hc, hv]
  · intro schema collected c hc
    exact ⟨valueFor collected c, assemble_lookup schema collected c hc⟩

/-- Witness for C4: mileage collected as a non-numeric string is stored as
NaN. -/
theorem C4_numeric_coercion_witness :
    lookupVal (assemble ["mileage"] [("mileage", Val.str "not a number")]).record
        "mileage" = some Val.nan :=
  C4_numeric_coercion_total.1 ["mileage"] [("mileage", Val.str "not a number")]
    "mileage" "not a number" (by decide) (by decide) (by decide) rfl (by decide)

/-- C5: `prepare_options` with sorting enabled returns a duplicate-free
list, sorted ascending, containing the sentinel whenever the input
contained a null marker; the empty input yields the empty output (and the
operation is a total function, so no input errors). -/
theorem C5_prepare_options_spec :
    ∀ (raw : List (Option String)) (nr : String),
      (prepare_options raw nr true).Nodup
        ∧ List.Sorted (fun a b : String => a ≤ b) (prepare_options raw nr true)
        ∧ (none ∈ raw → nr ∈ prepare_options raw nr true)
        ∧ prepare_options [] nr true = [] := by
  intro raw nr
  refine ⟨?_, ?_, ?_, rfl⟩
  · exact ((prepare_options_perm raw nr).nodup_iff).mpr (List.nodup_dedup _)
  · exact List.sorted_insertionSort _ _
  · intro hn
    exact ((prepare_options_perm raw nr).mem_iff).mpr
      (List.mem_dedup.mpr (List.mem_map.mpr ⟨none, hn, rfl⟩))

/-- Witness for C5: a concrete raw list with a null marker and a
duplicate. -/
theorem C5_prepare_options_witness :
    "Unknown" ∈ prepare_options [some "b", none, some "a", some "b"] "Unknown" true :=
  (C5_prepare_options_spec [some "b", none, some "a", some "b"] "Unknown").2.2.1
    (by decide)

/-- C6: for every entry of the transmission display map, reverse lookup of
its display label returns its internal code (the round trip); any label not
in the value set is returned unchanged.  The operation is a total Lean
function, hence deterministic and never failing. -/
theorem C6_to_internal_code_spec :
    (∀ kv : String × String, kv ∈ transmission_options_map →
        to_internal_code kv.2 = kv.1)
      ∧ (∀ label : String, label ∉ transmission_options_map.map Prod.snd →
        to_internal_code label = label) := by
  constructor
  · decide
  · exact to_internal_code_of_notMem

/-- Witness for C6: the round trip at `Automatic` and the fallback at a
label outside the value set. -/
theorem C6_to_internal_code_witness :
    to_internal_code "Automatic" = "A" ∧ to_internal_code "Zzz" = "Zzz" :=
  ⟨C6_to_internal_code_spec.1 ("A", "Automatic") (by decide),
   C6_to_internal_code_spec.2 "Zzz" (by decide)⟩

/-- C7: conversion multiplies the price by the rate of the selected
currency and formats JPY as a thousands-grouped truncated integer and every
other currency with exactly two decimals; in particular 100 at rate 150
gives 15000 shown as 15,000 and 100 at rate 0.9 gives 90 shown as 90.00. -/
theorem C7_convert_formatting :
    convert 100 "JPY" [("USD", 1), ("JPY", 150)] = (15000, "15,000")
      ∧ convert 100 "EUR" [("EUR", 9 / 10)] = (90, "90.00")
      ∧ (∀ p r : ℚ, (convert p "JPY" [("JPY", r)]).2
          = formatGroupedInt (truncInt (p * r)))
      ∧ (∀ p r : ℚ, (convert p "EUR" [("EUR", r)]).2 = formatFixed2 (p * r)) := by
  refine ⟨?_, ?_, fun p r => rfl, fun p r => rfl⟩
  · have h1 : convert 100 "JPY" [("USD", 1), ("JPY", 150)]
        = (100 * (150 : ℚ), formatGroupedInt (truncInt (100 * (150 : ℚ)))) := rfl
    have h2 : (100 * (150 : ℚ)) = ((15000 : ℤ) : ℚ) := by norm_num
    rw [h1, h2, truncInt_intCast]
    simp only [Prod.mk.injEq]
    exact ⟨by norm_num, by decide⟩
  · have h1 : convert 100 "EUR" [("EUR", 9 / 10)]
        = (100 * (9 / 10 : ℚ), formatFixed2 (100 * (9 / 10 : ℚ))) := rfl
    have h2 : (100 * (9 / 10 : ℚ)) = ((90 : ℤ) : ℚ) := by norm_num
    have h3 : roundHalfEven (((90 : ℤ) : ℚ) * 100) = 9000 := by
      have h4 : (((90 : ℤ) : ℚ) * 100) = ((9000 : ℤ) : ℚ) := by
        push_cast
        norm_num
      rw [h4, roundHalfEven_intCast]
    rw [h1, h2, formatFixed2_eq _ _ h3]
    simp only [Prod.mk.injEq]
    exact ⟨by norm_num, by decide⟩

/-- C8: the exchange-rate fetch is a total function of the remote outcome
(so it never raises); on an exception or a non-success result it returns
the fixed fallback table, which covers the seven supported currencies with
positive rates; and a success response lacking EGP has the approximate
value 50 injected. -/
theorem C8_exchange_rates_fallback :
    get_exchange_rates FetchOutcome.err = fallback_rates
      ∧ (∀ (result : String) (rates : RateTable), result ≠ "success" →
          get_exchange_rates (FetchOutcome.ok result rates) = fallback_rates)
      ∧ (∀ c ∈ fallback_currencies,
          ∃ q : ℚ, lookup_rate fallback_rates c = some q ∧ 0 < q)
      ∧ (∀ rates : RateTable, "EGP" ∉ rates.map Prod.fst →
          lookup_rate (get_exchange_rates (FetchOutcome.ok "success" rates)) "EGP"
            = some 50) := by
  refine ⟨rfl, ?_, ?_, ?_⟩
  · intro result rates h
    simp only [get_exchange_rates]
    rw [if_neg h]
  · intro c hc
    simp only [fallback_currencies] at hc
    fin_cases hc
    · exact ⟨1, rfl, by norm_num⟩
    · exact ⟨85 / 100, rfl, by norm_num⟩
    · exact ⟨75 / 100, rfl, by norm_num⟩
    · exact ⟨110, rfl, by norm_num⟩
    · exact ⟨125 / 100, rfl, by norm_num⟩
    · exact ⟨135 / 100, rfl, by norm_num⟩
    · exact ⟨50, rfl, by norm_num⟩
  · intro rates h
    simp only [get_exchange_rates]
    rw [if_pos trivial, if_pos h, lookup_rate_append_of_ne rates _ "EGP"
      (fun p hp he => h (List.mem_map.mpr ⟨p, hp, he⟩))]
    rfl

/-- Witness for C8: a non-success result and an EGP-free success response
at concrete inputs. -/
theorem C8_exchange_rates_witness :
    get_exchange_rates (FetchOutcome.ok "error" []) = fallback_rates
      ∧ lookup_rate (get_exchange_rates (FetchOutcome.ok "success" [])) "EGP"
          = some 50
      ∧ (∃ q : ℚ, lookup_rate fallback_rates "USD" = some q ∧ 0 < q) :=
  ⟨C8_exchange_rates_fallback.2.1 "error" [] (by decide),
   C8_exchange_rates_fallback.2.2.2 [] (by decide),
   C8_exchange_rates_fallback.2.2.1 "USD" (by decide)⟩

/-- C9: horsepower 700 produces the high-value warning and leaves
`valid_inputs` true, so the Predict button stays enabled; horsepower 5
produces the range error, clears `valid_inputs`, and the disabled button
reports false whether or not it is clicked, so the transform/predict calls
are never attempted while a validation error is present. -/
theorem C9_horsepower_gate :
    horsepower_check 700 true = (true, some HpMsg.warnHigh)
      ∧ predict_btn (horsepower_check 700 true).1 true = true
      ∧ horsepower_check 5 true = (false, some HpMsg.errorRange)
      ∧ predict_btn (horsepower_check 5 true).1 true = false
      ∧ predict_btn (horsepower_check 5 true).1 false = false
      ∧ (∀ pressed : Bool, predict_btn false pressed = false) := by
  refine ⟨by decide, by decide, by decide, by decide, by decide, ?_⟩
  intro pressed
  cases pressed <;> rfl

/-- C10: for JPY the shown amount is the truncation toward zero of the
converted price, not its rounding to the nearest integer: the converted
price 15000.9 displays as 15,000, while nearest-integer rounding would give
15001. -/
theorem C10_jpy_truncates :
    (convert (150009 / 10 : ℚ) "JPY" [("JPY", 1)]).2 = "15,000"
      ∧ truncInt (150009 / 10 : ℚ) = 15000
      ∧ roundHalfEven (150009 / 10 : ℚ) = 15001
      ∧ (∀ p r : ℚ, (convert p "JPY" [("JPY", r)]).1 = p * r) := by
  have ht : truncInt (150009 / 10 : ℚ) = 15000 := by
    rw [truncInt, if_neg (by norm_num : ¬ (150009 / 10 : ℚ) < 0)]
    norm_num
  refine ⟨?_, ht, ?_, fun p r => rfl⟩
  · have h1 : (convert (150009 / 10 : ℚ) "JPY" [("JPY", 1)]).2
        = formatGroupedInt (truncInt ((150009 / 10 : ℚ) * 1)) := rfl
    rw [h1, mul_one, ht]
    decide
  · rw [roundHalfEven]
    norm_num

end CarPriceApp
